import Mathlib

/-!
Verification development for baseMelUI.py, a wrapper library over a host
GUI command layer.  The host side of each widget is modelled explicitly:
host-visible data (displayed items, selection indices, sizes) is carried in
small state structures, and wrapper methods become functions on those states.
Host commands that matter only through the call they issue (pane-size queries
and edits, widget creation, type queries) are modelled as call values or call
traces.  Python exceptions (IndexError on list indexing, host command failure
at creation) are modelled with Option and Except.
-/

namespace BaseMelUI

/-! ### BaseMelWidget: size and visibility (baseMelUI.py lines 118-147) -/

structure BaseMelWidgetState where
  width : Nat
  height : Nat
  visible : Bool
  /-- the cached _preSize attribute; none models the state before the first
  hide, when hasattr finds no _preSize -/
  preSize : Option (Nat × Nat)
deriving DecidableEq

/-- getSize (lines 144-147): queries the host width and height. -/
def getSize (w : BaseMelWidgetState) : Nat × Nat :=
  (w.width, w.height)

/-- setSize (lines 142-143): edits the host width and height. -/
def setSize (w : BaseMelWidgetState) (widthHeight : Nat × Nat) : BaseMelWidgetState :=
  { w with width := widthHeight.1, height := widthHeight.2 }

/-- setVisibility (lines 120-129): when hiding, it first caches the current
size into _preSize and then shrinks the widget to (1,1); when showing, it
restores the cached size when a cache exists.  Finally it edits the host
visibility flag. -/
def setVisibility (w : BaseMelWidgetState) (visibility : Bool) : BaseMelWidgetState :=
  if visibility then
    let w1 := match w.preSize with
      | some ps => setSize w ps
      | none => w
    { w1 with visible := true }
  else
    let w1 := { w with preSize := some (getSize w) }
    let w2 := setSize w1 (1, 1)
    { w2 with visible := false }

/-! ### Widget creation failure (baseMelUI.py lines 11 and 88-91) -/

/-- MelUIError (line 11): the single typed error raised on creation failure. -/
structure MelUIError where
  message : String
deriving DecidableEq

/-- The message format of line 91: the format string interpolates the widget
command, the proposed unique name and the kwargs dict. -/
def widgetInstantiationMessage (cmdName proposedName args : String) : String :=
  "Error trying to instantiate widget of type " ++ cmdName ++
    ", with proposed name " ++ proposedName ++ " using the args " ++ args

/-- Lines 88-91: the host creation command runs inside a bare try/except, so
any host failure (modelled as an arbitrary error value) is converted into a
MelUIError carrying the command, name and kwargs. -/
def attemptWidgetCreation (hostResult : Except String Unit)
    (cmdName proposedName args : String) : Except MelUIError Unit :=
  match hostResult with
  | Except.ok u => Except.ok u
  | Except.error _ =>
      Except.error ⟨widgetInstantiationMessage cmdName proposedName args⟩

/-! ### The instance registry and IterInstances (baseMelUI.py lines 52, 224-235)

_INSTANCE_LIST is a class attribute of the base class.  Reading
cls._INSTANCE_LIST on a subclass finds the subclass own attribute when one
exists and otherwise falls through to the base attribute; the assignment
cls._INSTANCE_LIST = existingInstList on line 235 writes the attribute of cls
itself, shadowing (not mutating) the base attribute when cls is a proper
subclass.  The state below models the base list together with the optional
own list of the class IterInstances is invoked on; onBase says whether that
class is the base class itself. -/

structure RegistryState (W : Type) where
  baseList : List W
  subOwn : Option (List W)

/-- The list the attribute lookup cls._INSTANCE_LIST reads (line 227). -/
def readInstanceList {W : Type} (onBase : Bool) (s : RegistryState W) : List W :=
  if onBase then s.baseList else s.subOwn.getD s.baseList

/-- IterInstances (lines 224-235): builds existingInstList from the entries
that are instances of cls and whose widget still exists host-side, yields
exactly those, and assigns the filtered list back to cls._INSTANCE_LIST.
Returns the yielded list and the registry state afterwards. -/
def iterInstancesRun {W : Type} (isInst hostExists : W → Bool) (onBase : Bool)
    (s : RegistryState W) : List W × RegistryState W :=
  let existingInstList :=
    (readInstanceList onBase s).filter (fun w => isInst w && hostExists w)
  (existingInstList,
    if onBase then { baseList := existingInstList, subOwn := s.subOwn }
    else { baseList := s.baseList, subOwn := some existingInstList })

/-- Membership in the process-wide registry: an entry is registered when it is
in the base list or in the own list of the calling class. -/
def memReg {W : Type} (s : RegistryState W) (w : W) : Prop :=
  w ∈ s.baseList ∨ ∃ l, s.subOwn = some l ∧ w ∈ l

/-! ### FromStr rehydration (baseMelUI.py lines 15-16 and 196-223) -/

/-- A wrapper class as FromStr sees it: an identity plus the declared
WIDGET_CMD (None is possible, see line 212).  Commands are modelled by their
names. -/
structure WidgetCls where
  clsName : String
  widgetCmd : Option String
deriving DecidableEq

/-- Lines 15-16: maps ui type strings to command names when they differ from
the command of the same name. -/
def TYPE_NAMES_TO_CMDS : List (String × String) :=
  [("staticText", "text"), ("field", "textField")]

/-- Line 206: TYPE_NAMES_TO_CMDS.get( uiTypeStr, getattr( cmd, uiTypeStr, None ) ).
cmdAttr models getattr over the host command module. -/
def resolveUiCmd (cmdAttr : String → Option String) (uiTypeStr : String) :
    Option String :=
  match TYPE_NAMES_TO_CMDS.lookup uiTypeStr with
  | some c => some c
  | none => cmdAttr uiTypeStr

/-- Lines 210-214: candidate subclasses are the registered subclasses whose
WIDGET_CMD is not None and is the resolved command; with no resolved command
the loop is skipped and there are no candidates. -/
def fromStrCandidates (subclasses : List WidgetCls) (uiCmd : Option String) :
    List WidgetCls :=
  match uiCmd with
  | none => []
  | some c =>
      subclasses.filter (fun sub =>
        match sub.widgetCmd with
        | none => false
        | some w => w == c)

/-- Lines 216-218: the first candidate when any exists, else the class FromStr
was invoked on (the base class). -/
def fromStrClass (cmdAttr : String → Option String) (subclasses : List WidgetCls)
    (cls : WidgetCls) (uiTypeStr : String) : WidgetCls :=
  match fromStrCandidates subclasses (resolveUiCmd cmdAttr uiTypeStr) with
  | [] => cls
  | c :: _ => c

inductive FromStrHostCall
  | queryObjectTypeUI (name : String)
  | createWidget (cmdName name : String)
deriving DecidableEq

/-- The host calls FromStr issues (lines 196-223): only the objectTypeUI query
of line 205; line 220 casts the string with unicode.__new__ and runs no host
creation command. -/
def fromStrHostCalls (theStr : String) : List FromStrHostCall :=
  [FromStrHostCall.queryObjectTypeUI theStr]

/-! ### MelPaneLayout index conversion (baseMelUI.py lines 366-382) -/

inductive PaneHostCall
  | queryPaneSize (hostIdx : Nat)
  | editPaneSize (hostIdx : Nat) (width height : Nat)
deriving DecidableEq

/-- getPaneSize (lines 366-368): idx += 1, then queries the host paneSize at
that 1-based index.  paneSizes models the host answer per 1-based pane index;
the function returns the answer and the issued host call. -/
def getPaneSize (paneSizes : Nat → Nat × Nat) (idx : Nat) :
    (Nat × Nat) × List PaneHostCall :=
  let idx1 := idx + 1
  (paneSizes idx1, [PaneHostCall.queryPaneSize idx1])

/-- setPaneWidth (lines 374-377): idx += 1; then curSize = self.getPaneSize( idx )
hands the already incremented index to getPaneSize, which increments again;
finally it edits paneSize=(idx, curSize[0], size).  Returns the issued host
calls in order. -/
def setPaneWidth (paneSizes : Nat → Nat × Nat) (idx : Nat) (size : Nat) :
    List PaneHostCall :=
  let idx1 := idx + 1
  let cur := getPaneSize paneSizes idx1
  cur.2 ++ [PaneHostCall.editPaneSize idx1 cur.1.1 size]

/-- selectByIdx (lines 548-551): edits selectIndexedItem at idx+1; this gives
the host index targeted for wrapper index idx. -/
def selectByIdxHostIndex (idx : Nat) : Nat :=
  idx + 1

/-! ### MelTextScrollList (baseMelUI.py lines 514-632)

The host text scroll list is its ordered item strings plus the selected
indices.  getSelectedIdxs (lines 546-547) converts host 1-based indices to
0-based; the selIdxs field stores the 0-based view directly. -/

structure MelTextScrollList where
  items : List String
  selIdxs : List Nat
deriving DecidableEq

def MelTextScrollList.getItems (s : MelTextScrollList) : List String :=
  s.items

def MelTextScrollList.getSelectedIdxs (s : MelTextScrollList) : List Nat :=
  s.selIdxs

/-- The item values sitting at the currently selected indices (what
getSelectedItems, lines 544-545, reports, compared by value). -/
def MelTextScrollList.selectedValues (s : MelTextScrollList) : List String :=
  s.selIdxs.filterMap (fun i => s.items[i]?)

/-- clear (lines 585-586): the host removeAll flag empties the list (and with
it the selection). -/
def MelTextScrollList.clear (s : MelTextScrollList) : MelTextScrollList :=
  ⟨[], []⟩

/-- One iteration of the move-loop body (lines 600-602 and 623-625):
item = items.pop( idx ) raises IndexError when idx is out of range, modelled
as none; then items.insert( dst idx, item ).  In every reachable call the
destination is at most the length of the popped list, where Python insert and
List.insertIdx agree. -/
def movePopInsert (dst : Nat → Nat) (items : List String) (idx : Nat) :
    Option (List String) :=
  match items[idx]? with
  | some item => some (List.insertIdx (dst idx) item (items.eraseIdx idx))
  | none => none

/-- moveSelectedItemsUp (lines 589-609).  selIdxs = sorted selection; indexing
selIdxs[0] on an empty selection raises IndexError (none).  count is clamped
to min count selIdxs[0], so count never exceeds any selected index and the
Python idx-count never goes negative (Nat subtraction agrees).  When
selIdxs[0] > 0 the loop pops each selected index in descending order and
reinserts at idx-count, then setItems stores the result, the selection is
cleared and re-made at the shifted indices.  The local itemsToMove of line 599
is computed but never used and is omitted.  Otherwise the state is
unchanged. -/
def MelTextScrollList.moveSelectedItemsUp (count : Nat) (s : MelTextScrollList) :
    Option MelTextScrollList :=
  match List.insertionSort (· ≤ ·) s.getSelectedIdxs with
  | [] => none
  | s0 :: rest =>
    let cnt := min count s0
    if 0 < s0 then
      match List.foldlM (movePopInsert (fun idx => idx - cnt)) s.getItems
          ((s0 :: rest).reverse) with
      | some newItems => some ⟨newItems, (s0 :: rest).map (fun idx => idx - cnt)⟩
      | none => none
    else
      some s

/-- moveSelectedItemsDown (lines 610-632).  selIdxs = sorted selection;
maxIdx = len( items )-1; indexing selIdxs[-1] on an empty selection raises
IndexError (none).  count is clamped to min count (maxIdx - selIdxs[-1]); the
Python difference is negative only when the selection indexes past the end of
the list, a host-unreachable state (Nat subtraction truncates there).  When
selIdxs[-1] < maxIdx the loop pops each selected index in descending order
and reinserts at idx+count, then setItems stores the result and the selection
is re-made at the shifted indices.  The local itemsToMove of line 622 is dead
and omitted. -/
def MelTextScrollList.moveSelectedItemsDown (count : Nat) (s : MelTextScrollList) :
    Option MelTextScrollList :=
  let selIdxs := List.insertionSort (· ≤ ·) s.getSelectedIdxs
  let items := s.getItems
  let maxIdx := items.length - 1
  match selIdxs.getLast? with
  | none => none
  | some lastIdx =>
    let cnt := min count (maxIdx - lastIdx)
    if lastIdx < maxIdx then
      match List.foldlM (movePopInsert (fun idx => idx + cnt)) items
          selIdxs.reverse with
      | some newItems => some ⟨newItems, selIdxs.map (fun idx => idx + cnt)⟩
      | none => none
    else
      some s

/-! ### MelLayout.clear (baseMelUI.py lines 244-257)

A layout is modelled by the ordered unique names of its children.  clear
iterates the snapshot returned by getChildren and deletes each child through
the host; a host delete removes that name from the live child list. -/

def MelLayout.clear (children : List String) : List String :=
  children.foldl (fun live c => live.erase c) children

/-! ### MelObjectScrollList (baseMelUI.py lines 635-709)

The object variant stores the native objects in _items while the host widget
displays strings.  The state is the pair of both sequences.  The native
object type, its str conversion and the DISPLAY_NAMESPACES switch are
parameters. -/

structure MelObjectScrollList (α : Type) where
  _items : List α
  hostItems : List String
deriving DecidableEq

/-- The characters after the last occurrence of c, i.e. the Python
s.split( c )[ -1 ]. -/
def lastSegmentChars (c : Char) (l : List Char) : List Char :=
  l.foldl (fun acc ch => if ch == c then [] else acc ++ [ch]) []

/-- itemAsStr (lines 648-655): with DISPLAY_NAMESPACES the plain str of the
item; otherwise the part after the last colon, then after the last pipe. -/
def itemAsStr {α : Type} (displayNamespaces : Bool) (toStr : α → String)
    (item : α) : String :=
  if displayNamespaces then toStr item
  else
    let withoutNamespace := String.mk (lastSegmentChars ':' (toStr item).data)
    String.mk (lastSegmentChars '|' withoutNamespace.data)

namespace MelObjectScrollList

/-- append (lines 675-679): pushes the object onto _items and appends its
display string host-side (the append callback does not touch either list). -/
def append {α : Type} (dns : Bool) (toStr : α → String) (s : MelObjectScrollList α)
    (item : α) : MelObjectScrollList α :=
  { _items := s._items ++ [item],
    hostItems := s.hostItems ++ [itemAsStr dns toStr item] }

/-- removeByIdx (lines 680-682): _items.pop( idx ) raises IndexError out of
range (none); otherwise it removes index idx from _items and the same item
(host index idx+1) from the host list. -/
def removeByIdx {α : Type} (s : MelObjectScrollList α) (idx : Nat) :
    Option (MelObjectScrollList α) :=
  if idx < s._items.length then
    some { _items := s._items.eraseIdx idx, hostItems := s.hostItems.eraseIdx idx }
  else
    none

/-- The else branch of removeByValue (lines 688-693): Python iterates
enumerate( self._items ) while popping matches from the live list; after a pop
at position i the iterator continues at position i+1 of the shortened list.
Each match pops position i from _items and the same position (host index i+1)
from the host list. -/
def removeByValueLoop {α : Type} (pred : α → Bool) (s : MelObjectScrollList α)
    (i : Nat) : MelObjectScrollList α :=
  if h : i < s._items.length then
    if pred s._items[i] then
      removeByValueLoop pred
        { _items := s._items.eraseIdx i, hostItems := s.hostItems.eraseIdx i }
        (i + 1)
    else
      removeByValueLoop pred s (i + 1)
  else
    s
termination_by s._items.length - i
decreasing_by
  · have hlen : (s._items.eraseIdx i).length = s._items.length - 1 :=
      List.length_eraseIdx_of_lt h
    simp only [hlen]
    omega
  · omega

/-- removeByValue (lines 683-693): when the value is present in _items the
first occurrence index is popped from both sequences; otherwise the loop
removes every entry whose display form matches the display form of the
value. -/
def removeByValue {α : Type} [DecidableEq α] (dns : Bool) (toStr : α → String)
    (s : MelObjectScrollList α) (value : α) : MelObjectScrollList α :=
  if value ∈ s._items then
    let idx := s._items.indexOf value
    { _items := s._items.eraseIdx idx, hostItems := s.hostItems.eraseIdx idx }
  else
    removeByValueLoop
      (fun item => itemAsStr dns toStr item == itemAsStr dns toStr value) s 0

/-- clear (lines 694-696): resets _items and removes all host items. -/
def clear {α : Type} (s : MelObjectScrollList α) : MelObjectScrollList α :=
  { _items := [], hostItems := [] }

/-- setItems, inherited from MelTextScrollList semantics (lines 536-539):
self.clear() then self.append( i ) for each i, dispatching to the object
variant clear and append. -/
def setItems {α : Type} (dns : Bool) (toStr : α → String)
    (s : MelObjectScrollList α) (items : List α) : MelObjectScrollList α :=
  items.foldl (fun acc i => append dns toStr acc i) (clear s)

/-- update (lines 697-709): removes all host items and re-generates the
display string of every entry of _items (the selection restore of lines
707-709 touches only the host selection, not the two sequences). -/
def update {α : Type} (dns : Bool) (toStr : α → String)
    (s : MelObjectScrollList α) : MelObjectScrollList α :=
  { _items := s._items, hostItems := s._items.map (itemAsStr dns toStr) }

end MelObjectScrollList

/-- The lock-step invariant of claim C3: the host shows exactly one string per
native object, and the string at index i is the display form of _items[i]. -/
def lockStep {α : Type} (dns : Bool) (toStr : α → String)
    (s : MelObjectScrollList α) : Prop :=
  s.hostItems.length = s._items.length ∧
  ∀ i : Nat, s.hostItems[i]? = (s._items[i]?).map (itemAsStr dns toStr)

/-! ### Helper lemmas -/

lemma lockStep_iff {α : Type} (dns : Bool) (toStr : α → String)
    (s : MelObjectScrollList α) :
    lockStep dns toStr s ↔ s.hostItems = s._items.map (itemAsStr dns toStr) := by
  constructor
  · rintro ⟨hlen, hi⟩
    apply List.ext_getElem?
    intro i
    rw [hi i, List.getElem?_map]
  · intro h
    refine ⟨by rw [h, List.length_map], fun i => by rw [h, List.getElem?_map]⟩

lemma map_eraseIdx_comm {α β : Type} (f : α → β) :
    ∀ (l : List α) (i : Nat), (l.map f).eraseIdx i = (l.eraseIdx i).map f := by
  intro l
  induction l with
  | nil => intro i; rfl
  | cons x xs ih =>
    intro i
    cases i with
    | zero => rfl
    | succ n =>
      simp only [List.map_cons, List.eraseIdx_cons_succ, List.map_cons]
      rw [ih n]

lemma foldl_erase_self {α : Type} [DecidableEq α] :
    ∀ (l : List α), l.foldl (fun live c => live.erase c) l = [] := by
  intro l
  induction l with
  | nil => rfl
  | cons x t ih =>
    simp only [List.foldl_cons]
    rw [List.erase_cons_head]
    exact ih

lemma removeByValueLoop_lockStep {α : Type} (dns : Bool) (toStr : α → String)
    (pred : α → Bool) (s : MelObjectScrollList α) (i : Nat) :
    lockStep dns toStr s →
      lockStep dns toStr (MelObjectScrollList.removeByValueLoop pred s i) := by
  induction s, i using MelObjectScrollList.removeByValueLoop.induct pred with
  | case1 s i h hp ih =>
    intro hls
    rw [MelObjectScrollList.removeByValueLoop]
    simp only [h, dite_true, hp, if_true]
    apply ih
    rw [lockStep_iff] at hls ⊢
    simp only [lockStep_iff] at *
    rw [hls, map_eraseIdx_comm]
  | case2 s i h hp ih =>
    intro hls
    rw [MelObjectScrollList.removeByValueLoop]
    simp only [h, dite_true]
    rw [if_neg (by simp [hp])]
    exact ih hls
  | case3 s i h =>
    intro hls
    rw [MelObjectScrollList.removeByValueLoop]
    simp only [h, dite_false]
    exact hls

lemma movePopInsert_success (dst : Nat → Nat) (items : List String) (idx : Nat)
    (hidx : idx < items.length) (hdst : dst idx < items.length) :
    ∃ r, movePopInsert dst items idx = some r ∧ r.length = items.length := by
  refine ⟨List.insertIdx (dst idx) items[idx] (items.eraseIdx idx), ?_, ?_⟩
  · simp [movePopInsert, List.getElem?_eq_getElem hidx]
  · have h1 : (items.eraseIdx idx).length = items.length - 1 :=
      List.length_eraseIdx_of_lt hidx
    have h2 : dst idx ≤ (items.eraseIdx idx).length := by omega
    rw [List.length_insertIdx _ _ h2, h1]
    omega

lemma foldlM_movePopInsert_success (dst : Nat → Nat) :
    ∀ (idxs : List Nat) (items : List String),
      (∀ i ∈ idxs, i < items.length ∧ dst i < items.length) →
      ∃ r, List.foldlM (movePopInsert dst) items idxs = some r ∧
        r.length = items.length := by
  intro idxs
  induction idxs with
  | nil => intro items _; exact ⟨items, rfl, rfl⟩
  | cons i is ih =>
    intro items h
    obtain ⟨r1, hr1, hlen1⟩ :=
      movePopInsert_success dst items i (h i (by simp)).1 (h i (by simp)).2
    obtain ⟨r, hr, hlen⟩ := ih r1 (fun j hj => by rw [hlen1]; exact h j (by simp [hj]))
    refine ⟨r, ?_, by rw [hlen, hlen1]⟩
    rw [List.foldlM_cons, hr1]
    simpa using hr

lemma sorted_le_getLast? :
    ∀ (l : List Nat), l.Sorted (· ≤ ·) → ∀ (x : Nat), l.getLast? = some x →
      ∀ a ∈ l, a ≤ x := by
  intro l
  induction l with
  | nil => intro _ x hx; simp at hx
  | cons y t ih =>
    intro hs x hx a ha
    cases t with
    | nil =>
      simp only [List.getLast?_singleton, Option.some.injEq] at hx
      simp only [List.mem_singleton] at ha
      omega
    | cons z t2 =>
      rw [List.getLast?_cons_cons] at hx
      have hxmem : x ∈ z :: t2 := by
        obtain ⟨hne, hxe⟩ := List.mem_getLast?_eq_getLast (Option.mem_def.mpr hx)
        rw [hxe]
        exact List.getLast_mem hne
      rcases List.mem_cons.mp ha with rfl | ha2
      · exact (List.sorted_cons.mp hs).1 x hxmem
      · exact ih (List.sorted_cons.mp hs).2 x hx a ha2

lemma foldl_append_lockStep {α : Type} (dns : Bool) (toStr : α → String) :
    ∀ (items : List α) (acc : MelObjectScrollList α), lockStep dns toStr acc →
      lockStep dns toStr
        (items.foldl (fun acc i => MelObjectScrollList.append dns toStr acc i) acc) := by
  intro items
  induction items with
  | nil => intro acc h; exact h
  | cons x xs ih =>
    intro acc h
    simp only [List.foldl_cons]
    apply ih
    rw [lockStep_iff] at h ⊢
    simp [MelObjectScrollList.append, h]

/-! ### Claim theorems -/

/-- Claim C1 (code bug).  moveSelectedItemsUp does not preserve the relative
order of the moved items: on the list a, b, c with the contiguous selection at
indices 1 and 2 and count 1, the moved items b and c come out as c, a, b, so
c now precedes b although b preceded c before the move.  The intended result
under the claim would be b, c, a. -/
theorem moveSelectedItemsUp_breaks_moved_order :
    MelTextScrollList.moveSelectedItemsUp 1 ⟨["a", "b", "c"], [1, 2]⟩ =
      some ⟨["c", "a", "b"], [0, 1]⟩
    ∧ ¬ (List.indexOf "b" ["c", "a", "b"] < List.indexOf "c" ["c", "a", "b"]) := by
  exact ⟨rfl, by decide⟩

/-- Claim C2 (code bug).  After moveSelectedItemsUp the re-made selection at
the shifted indices does not reproduce the originally selected item set: on
a, b, c, d with selection at indices 2 and 3 (values c and d) and count 1 the
result is a, d, b, c with selection at indices 1 and 2, whose values are d and
b; the value c selected before the move is no longer selected. -/
theorem moveSelectedItemsUp_breaks_selection_set :
    MelTextScrollList.moveSelectedItemsUp 1 ⟨["a", "b", "c", "d"], [2, 3]⟩ =
      some ⟨["a", "d", "b", "c"], [1, 2]⟩
    ∧ "c" ∈ MelTextScrollList.selectedValues ⟨["a", "b", "c", "d"], [2, 3]⟩
    ∧ "c" ∉ MelTextScrollList.selectedValues ⟨["a", "d", "b", "c"], [1, 2]⟩ := by
  exact ⟨rfl, by decide, by decide⟩

/-- Claim C6 (code bug).  getPaneSize and selectByIdx convert a 0-based
wrapper index to the host index by adding exactly one, but setPaneWidth hands
its already incremented index to getPaneSize, which increments again: for
wrapper index 0 the current-size read queries host pane 2 while the edit
targets host pane 1, so the width written (20, taken from pane 2) is not the
width of the edited pane 1 (10). -/
theorem setPaneWidth_reads_wrong_host_pane :
    (getPaneSize (fun i => (10 * i, 10 * i + 1)) 0).2 = [PaneHostCall.queryPaneSize 1]
    ∧ selectByIdxHostIndex 4 = 5
    ∧ setPaneWidth (fun i => (10 * i, 10 * i + 1)) 0 99 =
        [PaneHostCall.queryPaneSize 2, PaneHostCall.editPaneSize 1 20 99]
    ∧ (2 : Nat) ≠ 0 + 1 := by
  exact ⟨rfl, rfl, rfl, by decide⟩

/-- Claim C7 (confirmed).  For a visible widget, setVisibility false caches
the current size and shrinks the widget to (1,1), and a following
setVisibility true restores exactly the cached pre-hide size. -/
theorem setVisibility_hide_show_restores_size (w : BaseMelWidgetState)
    (hvis : w.visible = true) :
    getSize (setVisibility (setVisibility w false) true) = getSize w
    ∧ getSize (setVisibility w false) = (1, 1) := by
  constructor
  · simp [setVisibility, getSize, setSize]
  · simp [setVisibility, getSize, setSize]

theorem setVisibility_hide_show_restores_size_witness :
    getSize (setVisibility (setVisibility ⟨10, 24, true, none⟩ false) true) =
      getSize ⟨10, 24, true, none⟩
    ∧ getSize (setVisibility ⟨10, 24, true, none⟩ false) = (1, 1) :=
  setVisibility_hide_show_restores_size ⟨10, 24, true, none⟩ rfl

/-- Claim C8 (confirmed).  Whenever the host creation command fails, the
constructor raises MelUIError whose message interpolates the attempted
command, the proposed widget name and the kwargs; and every outcome of the
creation call is either success or that MelUIError, so no other error escapes
the bare try/except. -/
theorem widgetCreation_failure_raises_MelUIError (cmdName proposedName args : String) :
    (∀ e : String,
      attemptWidgetCreation (Except.error e) cmdName proposedName args =
        Except.error ⟨"Error trying to instantiate widget of type " ++ cmdName ++
          ", with proposed name " ++ proposedName ++ " using the args " ++ args⟩)
    ∧ (∀ hostResult : Except String Unit,
      attemptWidgetCreation hostResult cmdName proposedName args = Except.ok ()
      ∨ attemptWidgetCreation hostResult cmdName proposedName args =
          Except.error ⟨widgetInstantiationMessage cmdName proposedName args⟩) := by
  constructor
  · intro e
    rfl
  · intro hostResult
    cases hostResult with
    | ok u => left; rfl
    | error e => right; rfl

/-- Claim C9 (confirmed).  Clear operations empty their containers: after
MelLayout.clear the child list is empty, after MelTextScrollList.clear the
item list is empty, and after MelObjectScrollList.clear both the shadow
sequence and the host display sequence are empty. -/
theorem clear_ops_empty_containers (children : List String) (s : MelTextScrollList)
    {α : Type} (os : MelObjectScrollList α) :
    MelLayout.clear children = []
    ∧ (MelTextScrollList.clear s).items = []
    ∧ (MelObjectScrollList.clear os)._items = []
    ∧ (MelObjectScrollList.clear os).hostItems = [] := by
  exact ⟨foldl_erase_self children, rfl, rfl, rfl⟩

/-- Claim C3 (confirmed).  The shadow sequence _items stays in lock-step with
the host display sequence: assuming the invariant before, each of append,
removeByIdx (when it does not raise), removeByValue, setItems, clear and
update re-establishes it, so the host always shows exactly one string per
native object, the string at index i being itemAsStr of _items[i]. -/
theorem objectScrollList_lockStep_preserved {α : Type} [DecidableEq α]
    (dns : Bool) (toStr : α → String) (s : MelObjectScrollList α)
    (h : lockStep dns toStr s) :
    (∀ item : α, lockStep dns toStr (MelObjectScrollList.append dns toStr s item))
    ∧ (∀ (idx : Nat) (t : MelObjectScrollList α),
        MelObjectScrollList.removeByIdx s idx = some t → lockStep dns toStr t)
    ∧ (∀ value : α,
        lockStep dns toStr (MelObjectScrollList.removeByValue dns toStr s value))
    ∧ (∀ items : List α,
        lockStep dns toStr (MelObjectScrollList.setItems dns toStr s items))
    ∧ lockStep dns toStr (MelObjectScrollList.clear s)
    ∧ lockStep dns toStr (MelObjectScrollList.update dns toStr s) := by
  have hmap := (lockStep_iff dns toStr s).mp h
  refine ⟨?_, ?_, ?_, ?_, ?_, ?_⟩
  · intro item
    rw [lockStep_iff]
    simp [MelObjectScrollList.append, hmap]
  · intro idx t ht
    simp only [MelObjectScrollList.removeByIdx] at ht
    split at ht
    · injection ht with ht2
      rw [← ht2, lockStep_iff]
      show s.hostItems.eraseIdx idx = (s._items.eraseIdx idx).map (itemAsStr dns toStr)
      rw [hmap, map_eraseIdx_comm]
    · exact absurd ht (by simp)
  · intro value
    simp only [MelObjectScrollList.removeByValue]
    split
    · rw [lockStep_iff]
      show s.hostItems.eraseIdx _ = (s._items.eraseIdx _).map (itemAsStr dns toStr)
      rw [hmap, map_eraseIdx_comm]
    · exact removeByValueLoop_lockStep dns toStr _ s 0 h
  · intro items
    exact foldl_append_lockStep dns toStr items (MelObjectScrollList.clear s)
      ((lockStep_iff dns toStr _).mpr rfl)
  · exact (lockStep_iff dns toStr _).mpr rfl
  · rw [lockStep_iff]
    rfl

theorem objectScrollList_lockStep_preserved_witness :
    lockStep true (fun v : String => v)
      (MelObjectScrollList.append true (fun v : String => v) ⟨["x"], ["x"]⟩ "y") :=
  (objectScrollList_lockStep_preserved true (fun v : String => v) ⟨["x"], ["x"]⟩
    ((lockStep_iff true (fun v : String => v) ⟨["x"], ["x"]⟩).mpr rfl)).1 "y"

/-- Claim C4 (confirmed).  IterInstances prunes only stale entries: under the
reachable-registry hypotheses that every base-list entry is an instance of
the base class and every class-own list holds only instances of its class,
any registered wrapper whose widget still exists host-side is still
registered after the call, and an entry that disappears had a host-reported
dead widget.  The subclass case relies on line 235 assigning the filtered
list to the attribute of the invoked class, leaving the base list intact. -/
theorem iterInstances_prunes_only_stale {W : Type} (isInst hostExists : W → Bool)
    (onBase : Bool) (s : RegistryState W)
    (hBase : onBase = true → ∀ w ∈ s.baseList, isInst w = true)
    (hOwn : ∀ l, s.subOwn = some l → ∀ w ∈ l, isInst w = true)
    (w : W) (hmem : memReg s w) :
    (hostExists w = true → memReg (iterInstancesRun isInst hostExists onBase s).2 w)
    ∧ (¬ memReg (iterInstancesRun isInst hostExists onBase s).2 w →
        hostExists w = false) := by
  have part1 : hostExists w = true →
      memReg (iterInstancesRun isInst hostExists onBase s).2 w := by
    intro hex
    cases onBase with
    | false =>
      rcases hmem with hb | ⟨l, hl, hwl⟩
      · exact Or.inl hb
      · refine Or.inr ⟨_, rfl, ?_⟩
        show w ∈ (readInstanceList false s).filter (fun w => isInst w && hostExists w)
        refine List.mem_filter.mpr ⟨?_, ?_⟩
        · simp [readInstanceList, hl, hwl]
        · simp [hOwn l hl w hwl, hex]
    | true =>
      rcases hmem with hb | ⟨l, hl, hwl⟩
      · refine Or.inl ?_
        show w ∈ (readInstanceList true s).filter (fun w => isInst w && hostExists w)
        refine List.mem_filter.mpr ⟨?_, ?_⟩
        · simpa [readInstanceList] using hb
        · simp [hBase rfl w hb, hex]
      · exact Or.inr ⟨l, hl, hwl⟩
  refine ⟨part1, fun hnot => ?_⟩
  cases hhe : hostExists w with
  | false => rfl
  | true => exact absurd (part1 hhe) hnot

theorem iterInstances_prunes_only_stale_witness :
    ((fun _ : String => true) "a" = true →
      memReg (iterInstancesRun (fun _ : String => true) (fun _ : String => true) true
        ⟨["a"], none⟩).2 "a")
    ∧ (¬ memReg (iterInstancesRun (fun _ : String => true) (fun _ : String => true) true
        ⟨["a"], none⟩).2 "a" →
      (fun _ : String => true) "a" = false) :=
  iterInstances_prunes_only_stale (fun _ => true) (fun _ => true) true ⟨["a"], none⟩
    (fun _ w hw => rfl) (fun l hl => by simp at hl) "a" (Or.inl (by simp))

/-- Claim C5 (confirmed).  FromStr resolves the host-reported type string to a
command (through TYPE_NAMES_TO_CMDS, else getattr); when some registered
subclass declares that command the produced class declares exactly it, and
with no such subclass (or no resolvable command) the result is the class
FromStr was invoked on, i.e. the base class; and the host calls FromStr
issues contain no creation call. -/
theorem fromStr_resolves_declared_cmd (cmdAttr : String → Option String)
    (subclasses : List WidgetCls) (cls : WidgetCls) (uiTypeStr theStr : String) :
    (∀ call ∈ fromStrHostCalls theStr, ∀ c n, call ≠ FromStrHostCall.createWidget c n)
    ∧ (∀ c : String, resolveUiCmd cmdAttr uiTypeStr = some c →
        ((∃ sub ∈ subclasses, sub.widgetCmd = some c) →
          (fromStrClass cmdAttr subclasses cls uiTypeStr).widgetCmd = some c)
        ∧ ((∀ sub ∈ subclasses, sub.widgetCmd ≠ some c) →
          fromStrClass cmdAttr subclasses cls uiTypeStr = cls))
    ∧ (resolveUiCmd cmdAttr uiTypeStr = none →
        fromStrClass cmdAttr subclasses cls uiTypeStr = cls) := by
  refine ⟨?_, ?_, ?_⟩
  · intro call hc c n
    simp only [fromStrHostCalls, List.mem_singleton] at hc
    subst hc
    simp
  · intro c hc
    constructor
    · rintro ⟨sub, hsub, hcmd⟩
      simp only [fromStrClass, hc, fromStrCandidates]
      cases hf : subclasses.filter
          (fun sub => match sub.widgetCmd with | none => false | some w => w == c) with
      | nil =>
        exfalso
        have hns := List.filter_eq_nil_iff.mp hf sub hsub
        rw [hcmd] at hns
        simp at hns
      | cons hd tl =>
        have hmem : hd ∈ subclasses.filter
            (fun sub => match sub.widgetCmd with | none => false | some w => w == c) := by
          rw [hf]
          exact List.mem_cons_self _ _
        have hp := (List.mem_filter.mp hmem).2
        cases hhd : hd.widgetCmd with
        | none => rw [hhd] at hp; simp at hp
        | some v =>
          rw [hhd] at hp
          simp only [beq_iff_eq] at hp
          simp [hhd, hp]
    · intro hall
      simp only [fromStrClass, hc, fromStrCandidates]
      have hnil : subclasses.filter
          (fun sub => match sub.widgetCmd with | none => false | some w => w == c) = [] := by
        apply List.filter_eq_nil_iff.mpr
        intro sub hsub
        cases hs2 : sub.widgetCmd with
        | none => simp
        | some v =>
          have hne2 := hall sub hsub
          rw [hs2] at hne2
          simp only [ne_eq, Option.some.injEq] at hne2
          simp [hne2]
      rw [hnil]
  · intro hc
    simp [fromStrClass, hc, fromStrCandidates]

theorem fromStr_resolves_declared_cmd_witness :
    (fromStrClass (fun u => if u == "button" then some "button" else none)
      [⟨"MelButton", some "button"⟩] ⟨"BaseMelWidget", some "control"⟩
      "button").widgetCmd = some "button" :=
  ((fromStr_resolves_declared_cmd (fun u => if u == "button" then some "button" else none)
    [⟨"MelButton", some "button"⟩] ⟨"BaseMelWidget", some "control"⟩
    "button" "button0").2.1 "button" rfl).1
    ⟨⟨"MelButton", some "button"⟩, by simp, rfl⟩

/-- Claim C10 (confirmed).  Both move operations index the sorted selection
(selIdxs[0] respectively selIdxs[-1]) before any emptiness check, so an empty
selection raises IndexError (none) in both rather than being a no-op; and
with a non-empty selection whose indices address existing items, neither
operation fails, so the empty-selection error branch is unreachable there. -/
theorem moveSelectedItems_empty_selection_errors (s : MelTextScrollList) (count : Nat) :
    (s.getSelectedIdxs = [] →
      MelTextScrollList.moveSelectedItemsUp count s = none
      ∧ MelTextScrollList.moveSelectedItemsDown count s = none)
    ∧ ((∀ i ∈ s.getSelectedIdxs, i < s.getItems.length) → s.getSelectedIdxs ≠ [] →
      (MelTextScrollList.moveSelectedItemsUp count s).isSome
      ∧ (MelTextScrollList.moveSelectedItemsDown count s).isSome) := by
  constructor
  · intro hempty
    obtain ⟨items, selIdxs⟩ := s
    have h2 : selIdxs = [] := hempty
    subst h2
    exact ⟨rfl, rfl⟩
  · intro hvalid hne
    have hperm := List.perm_insertionSort (· ≤ ·) s.getSelectedIdxs
    have hsorted := List.sorted_insertionSort (· ≤ ·) s.getSelectedIdxs
    constructor
    · cases hs : List.insertionSort (· ≤ ·) s.getSelectedIdxs with
      | nil =>
        exact absurd (List.perm_nil.mp (hs ▸ hperm).symm).symm (fun hx => hne hx.symm)
      | cons s0 rest =>
        unfold MelTextScrollList.moveSelectedItemsUp
        simp only [hs]
        by_cases h0 : 0 < s0
        · rw [if_pos h0]
          have hcond : ∀ i ∈ (s0 :: rest).reverse,
              i < s.getItems.length ∧ i - min count s0 < s.getItems.length := by
            intro i hi
            have himem : i ∈ s.getSelectedIdxs := by
              have h3 : i ∈ s0 :: rest := List.mem_reverse.mp hi
              exact hperm.mem_iff.mp (by rw [hs]; exact h3)
            have hlt := hvalid i himem
            exact ⟨hlt, by omega⟩
          obtain ⟨r, hr, _⟩ := foldlM_movePopInsert_success
            (fun idx => idx - min count s0) ((s0 :: rest).reverse) s.getItems hcond
          rw [hr]
          simp
        · rw [if_neg h0]
          simp
    · cases hs : List.insertionSort (· ≤ ·) s.getSelectedIdxs with
      | nil =>
        exact absurd (List.perm_nil.mp (hs ▸ hperm).symm).symm (fun hx => hne hx.symm)
      | cons s0 rest =>
        unfold MelTextScrollList.moveSelectedItemsDown
        have hnenil : (s0 :: rest : List Nat) ≠ [] := by simp
        have hlast : (s0 :: rest).getLast? = some ((s0 :: rest).getLast hnenil) :=
          List.getLast?_eq_getLast_of_ne_nil hnenil
        simp only [hs, hlast]
        have hsorted2 : (s0 :: rest).Sorted (· ≤ ·) := hs ▸ hsorted
        have hlastmax : ∀ a ∈ s0 :: rest, a ≤ (s0 :: rest).getLast hnenil :=
          sorted_le_getLast? (s0 :: rest) hsorted2 _ hlast
        by_cases hlt : (s0 :: rest).getLast hnenil < s.getItems.length - 1
        · rw [if_pos hlt]
          have hcond : ∀ i ∈ (s0 :: rest).reverse,
              i < s.getItems.length ∧
              i + min count (s.getItems.length - 1 - (s0 :: rest).getLast hnenil) <
                s.getItems.length := by
            intro i hi
            have h3 : i ∈ s0 :: rest := List.mem_reverse.mp hi
            have himem : i ∈ s.getSelectedIdxs :=
              hperm.mem_iff.mp (by rw [hs]; exact h3)
            have hlt2 := hvalid i himem
            have hle := hlastmax i h3
            exact ⟨hlt2, by omega⟩
          obtain ⟨r, hr, _⟩ := foldlM_movePopInsert_success
            (fun idx => idx + min count
              (s.getItems.length - 1 - (s0 :: rest).getLast hnenil))
            ((s0 :: rest).reverse) s.getItems hcond
          rw [hr]
          simp
        · rw [if_neg hlt]
          simp

theorem moveSelectedItems_empty_selection_errors_witness :
    (MelTextScrollList.moveSelectedItemsUp 1 ⟨["a"], []⟩ = none
      ∧ MelTextScrollList.moveSelectedItemsDown 1 ⟨["a"], []⟩ = none)
    ∧ ((MelTextScrollList.moveSelectedItemsUp 1 ⟨["a", "b"], [0]⟩).isSome
      ∧ (MelTextScrollList.moveSelectedItemsDown 1 ⟨["a", "b"], [0]⟩).isSome) :=
  ⟨(moveSelectedItems_empty_selection_errors ⟨["a"], []⟩ 1).1 rfl,
   (moveSelectedItems_empty_selection_errors ⟨["a", "b"], [0]⟩ 1).2
     (by decide) (by decide)⟩

end BaseMelUI
